import Mathlib

/-!
Verification of the goproxy MITM core: the certificate signer and its cache
(signer.go), the CONNECT dispatcher and MITM response writer (https.go), and
the WebSocket detection helpers (websocket.go), shallowly embedded as
executable Lean definitions, with theorems checking the specified behaviour.
-/

namespace GoProxy

/-! ## Bytes and UTF-8 -/

/-- UTF-8 encoding of one character, as Go's `[]byte(string)` produces. -/
def utf8EncodeChar (c : Char) : List Nat :=
  let n := c.toNat
  if n < 0x80 then [n]
  else if n < 0x800 then [0xC0 ||| (n >>> 6), 0x80 ||| (n &&& 0x3F)]
  else if n < 0x10000 then
    [0xE0 ||| (n >>> 12), 0x80 ||| ((n >>> 6) &&& 0x3F), 0x80 ||| (n &&& 0x3F)]
  else
    [0xF0 ||| (n >>> 18), 0x80 ||| ((n >>> 12) &&& 0x3F),
     0x80 ||| ((n >>> 6) &&& 0x3F), 0x80 ||| (n &&& 0x3F)]

/-- The UTF-8 bytes of a string (Go's `[]byte(s)`). -/
def strBytes (s : String) : List Nat :=
  s.data.foldr (fun c acc => utf8EncodeChar c ++ acc) []

/-- Byte-wise lexicographic order on byte lists, Go's `string` comparison. -/
def bytesLt : List Nat → List Nat → Bool
  | [], [] => false
  | [], _ :: _ => true
  | _ :: _, [] => false
  | a :: as, b :: bs => if a < b then true else if b < a then false else bytesLt as bs

/-- Go's string order: byte-wise comparison of the UTF-8 encodings. -/
def strLtGo (s t : String) : Bool := bytesLt (strBytes s) (strBytes t)

/-- Insert a string into an already sorted list (ascending Go string order). -/
def insertSorted (s : String) : List String → List String
  | [] => [s]
  | t :: ts => if strLtGo t s then t :: insertSorted s ts else s :: t :: ts

/-- Ascending sort in Go string order: the result of `sort.Strings` on a copy
of the list (ties are identical strings, so stability is unobservable). -/
def sortStrings (l : List String) : List String := l.foldr insertSorted []

/-! ## SHA-1 (crypto/sha1), on `Nat` with explicit reductions mod 2^32 -/

def m32 (n : Nat) : Nat := n % 4294967296

def rotl (k n : Nat) : Nat := m32 (n <<< k) ||| (n >>> (32 - k))

/-- The sixteen 32-bit big-endian words of one 64-byte block. -/
def sha1Words (block : List Nat) : List Nat :=
  (List.range 16).map fun i =>
    ((block.getD (4 * i) 0) <<< 24) ||| ((block.getD (4 * i + 1) 0) <<< 16) |||
      ((block.getD (4 * i + 2) 0) <<< 8) ||| (block.getD (4 * i + 3) 0)

/-- Extend sixteen words to the eighty words of the message schedule. -/
def sha1ExtendAll (w : List Nat) : List Nat :=
  (List.range 64).foldl
    (fun acc _ =>
      acc ++ [rotl 1 ((acc.getD (acc.length - 3) 0) ^^^ (acc.getD (acc.length - 8) 0) ^^^
        (acc.getD (acc.length - 14) 0) ^^^ (acc.getD (acc.length - 16) 0))])
    w

def sha1F (i b c d : Nat) : Nat :=
  if i < 20 then (b &&& c) ||| ((4294967295 ^^^ b) &&& d)
  else if i < 40 then b ^^^ c ^^^ d
  else if i < 60 then (b &&& c) ||| (b &&& d) ||| (c &&& d)
  else b ^^^ c ^^^ d

def sha1K (i : Nat) : Nat :=
  if i < 20 then 0x5A827999
  else if i < 40 then 0x6ED9EBA1
  else if i < 60 then 0x8F1BBCDC
  else 0xCA62C1D6

/-- One SHA-1 compression step over a 64-byte block. -/
def sha1Block (h : List Nat) (block : List Nat) : List Nat :=
  let w := sha1ExtendAll (sha1Words block)
  let st0 := (h.getD 0 0, h.getD 1 0, h.getD 2 0, h.getD 3 0, h.getD 4 0)
  let st := w.enum.foldl
    (fun (st : Nat × Nat × Nat × Nat × Nat) (p : Nat × Nat) =>
      let (a, b, c, d, e) := st
      let temp := m32 (rotl 5 a + sha1F p.1 b c d + e + sha1K p.1 + p.2)
      (temp, a, rotl 30 b, c, d))
    st0
  [m32 (h.getD 0 0 + st.1), m32 (h.getD 1 0 + st.2.1), m32 (h.getD 2 0 + st.2.2.1),
   m32 (h.getD 3 0 + st.2.2.2.1), m32 (h.getD 4 0 + st.2.2.2.2)]

/-- Merkle–Damgård padding: 0x80, zeros, then the bit length big-endian. -/
def sha1Pad (msg : List Nat) : List Nat :=
  let len := msg.length
  let k := (119 - (len % 64)) % 64
  msg ++ 0x80 :: List.replicate k 0 ++
    (List.range 8).map (fun i => ((8 * len) >>> (8 * (7 - i))) &&& 0xFF)

/-- SHA-1 digest (20 bytes) of a byte list. -/
def sha1 (msg : List Nat) : List Nat :=
  let padded := sha1Pad msg
  let bs := (List.range (padded.length / 64)).map fun i => (padded.drop (64 * i)).take 64
  let h := bs.foldl sha1Block [0x67452301, 0xEFCDAB89, 0x98BADCFE, 0x10325476, 0xC3D2E1F0]
  h.foldr
    (fun w acc => [(w >>> 24) &&& 0xFF, (w >>> 16) &&& 0xFF, (w >>> 8) &&& 0xFF, w &&& 0xFF] ++ acc)
    []

/-- Big-endian integer reading of a byte list, `big.Int.SetBytes`. -/
def natFromBytes (bs : List Nat) : Nat := bs.foldl (fun n b => n * 256 + b) 0

/-! ## net.ParseIP -/

/-- An IP address as `net.ParseIP` returns it: a 4-byte IPv4 or 16-byte IPv6. -/
inductive IpAddr where
  | v4 (a b c d : Nat)
  | v6 (bytes : List Nat)
  deriving DecidableEq, Repr

/-- Go's `dtoi`: the leading run of decimal digits of `s`, as (value, length
consumed); fails with no digit or when the value reaches `big` (0xFFFFFF). -/
def dtoiGo (s : List Char) : Option (Nat × Nat) :=
  let digits := s.takeWhile (fun c => c.isDigit)
  if digits.isEmpty then none
  else
    let n := digits.foldl (fun n c => n * 10 + (c.toNat - 48)) 0
    if 0xFFFFFF ≤ n then none else some (n, digits.length)

def hexVal (c : Char) : Option Nat :=
  if c.isDigit then some (c.toNat - 48)
  else if 'a' ≤ c ∧ c ≤ 'f' then some (c.toNat - 87)
  else if 'A' ≤ c ∧ c ≤ 'F' then some (c.toNat - 55)
  else none

/-- Go's `xtoi`: the leading run of hex digits, as (value, length consumed). -/
def xtoiGo (s : List Char) : Option (Nat × Nat) :=
  let digits := s.takeWhile (fun c => (hexVal c).isSome)
  if digits.isEmpty then none
  else
    let n := digits.foldl (fun n c => n * 16 + (hexVal c).getD 0) 0
    if 0xFFFFFF ≤ n then none else some (n, digits.length)

/-- Splitting on `.` (the character-level equivalent of
`strings.Split(s, ".")`). -/
def splitOnDot : List Char → List (List Char)
  | [] => [[]]
  | c :: cs =>
    if c = '.' then [] :: splitOnDot cs
    else
      match splitOnDot cs with
      | f :: rest => (c :: f) :: rest
      | [] => [[c]]

/-- One dotted-quad field: all digits, ≤ 255, no leading zero (Go rejects
leading zeros in IPv4 fields). -/
def v4Field (f : List Char) : Option Nat :=
  match dtoiGo f with
  | none => none
  | some (n, c) =>
    if c ≠ f.length then none
    else if 255 < n then none
    else if 1 < c ∧ f.headD ' ' = '0' then none
    else some n

/-- Go's `parseIPv4`: exactly four dotted decimal fields. -/
def parseIPv4 (s : String) : Option IpAddr :=
  match (splitOnDot s.data).mapM v4Field with
  | some [a, b, c, d] => some (.v4 a b c d)
  | _ => none

/-- The loop of Go's `parseIPv6`, on (remaining characters, bytes so far,
ellipsis position). Returns (unconsumed suffix, bytes, ellipsis) at a break,
`none` on a parse failure. Each iteration adds at least two bytes, so eight
rounds of fuel reach the sixteen-byte limit. -/
def v6Iter : Nat → List Char → List Nat → Option Nat →
    Option (List Char × List Nat × Option Nat)
  | 0, _, _, _ => none
  | fuel + 1, s, acc, ell =>
    if 16 ≤ acc.length then some (s, acc, ell)
    else match xtoiGo s with
    | none => none
    | some (n, c) =>
      if 0xFFFF < n then none
      else if c < s.length ∧ s.getD c ' ' = '.' then
        if ell.isNone ∧ acc.length ≠ 12 then none
        else if 16 < acc.length + 4 then none
        else match parseIPv4 (String.mk s) with
          | some (.v4 a b g d) => some ([], acc ++ [a, b, g, d], ell)
          | _ => none
      else
        let acc := acc ++ [n >>> 8, n &&& 0xFF]
        let s := s.drop c
        if s.isEmpty then some ([], acc, ell)
        else if s.headD ' ' ≠ ':' ∨ s.length = 1 then none
        else
          let s := s.drop 1
          if s.headD ' ' = ':' then
            if ell.isSome then none
            else if (s.drop 1).isEmpty then some ([], acc, some acc.length)
            else v6Iter fuel (s.drop 1) acc (some acc.length)
          else v6Iter fuel s acc ell

/-- Go's `parseIPv6` (no zone): hex groups, at most one `::`, optional
trailing embedded IPv4; expands the ellipsis with zero bytes. -/
def parseIPv6 (str : String) : Option (List Nat) :=
  let s := str.data
  let leading := 2 ≤ s.length ∧ s.headD ' ' = ':' ∧ (s.drop 1).headD ' ' = ':'
  if leading then
    if (s.drop 2).isEmpty then some (List.replicate 16 0)
    else match v6Iter 9 (s.drop 2) [] (some 0) with
      | none => none
      | some (rem, acc, ell) =>
        if ¬rem.isEmpty then none
        else if acc.length < 16 then
          match ell with
          | none => none
          | some e => some (acc.take e ++ List.replicate (16 - acc.length) 0 ++ acc.drop e)
        else if ell.isSome then none
        else some acc
  else
    match v6Iter 9 s [] none with
    | none => none
    | some (rem, acc, ell) =>
      if ¬rem.isEmpty then none
      else if acc.length < 16 then
        match ell with
        | none => none
        | some e => some (acc.take e ++ List.replicate (16 - acc.length) 0 ++ acc.drop e)
      else if ell.isSome then none
      else some acc

/-- Go's `net.ParseIP`: dispatch on the first `.` or `:` seen. -/
def parseIP (s : String) : Option IpAddr :=
  match s.data.find? (fun c => c == '.' || c == ':') with
  | some '.' => parseIPv4 s
  | some ':' => (parseIPv6 s).map .v6
  | _ => none

/-! ## The certificate data model (signer.go)

X.509 DER and the crypto primitives of Go's standard library are abstracted:
a DER blob is modelled as the certificate content it encodes (encoding is
injective and deterministic), an RSA key as the state of the entropy stream
it was generated from (`rsa.GenerateKey` is a deterministic function of the
bytes it reads). Everything signer.go itself does is translated directly. -/

structure PkixName where
  organization : List String := []
  commonName : String := ""
  deriving DecidableEq, Repr

/-- The fields of an `x509.Certificate` that signer.go sets or reads. -/
structure X509Content where
  serialNumber : Nat := 0
  subject : PkixName := {}
  issuer : PkixName := {}
  notBefore : Int := 0
  notAfter : Int := 0
  keyUsage : Nat := 0
  extKeyUsage : List Nat := []
  basicConstraintsValid : Bool := false
  dnsNames : List String := []
  ipAddresses : List IpAddr := []
  deriving DecidableEq, Repr

/-- A DER blob: either the deterministic encoding of a certificate's content,
or bytes no certificate encodes. -/
inductive Der where
  | wellFormed (content : X509Content)
  | malformed
  deriving DecidableEq, Repr

/-- Modelled from the spec: the deterministic CSPRNG state (§4.1; the
counter-encryptor code is not among the provided files). AES-CTR with a key
hashed from the CA private key material and an IV taken from the first 16
bytes of the seed; each read advances the counter. -/
structure CounterEncryptorRand where
  key : List Nat
  iv : List Nat
  counter : Nat
  deriving DecidableEq, Repr

/-- A private key: the CA's RSA key material, or a key deterministically
generated from a CSPRNG state. -/
inductive PrivateKey where
  | rsa (material : List Nat)
  | generated (entropy : CounterEncryptorRand)
  | unsupported
  deriving DecidableEq, Repr

/-- `tls.Certificate`: a DER chain and a private key. -/
structure TlsCertificate where
  certificate : List Der := []
  privateKey : Option PrivateKey := none
  deriving DecidableEq, Repr

/-- The zero value of `tls.Certificate`. -/
def zeroTlsCertificate : TlsCertificate := {}

/-- What Go's `(cert tls.Certificate, err error)` pair carries back. -/
structure SignResult where
  cert : TlsCertificate
  err : Option String
  deriving DecidableEq, Repr

/-- Model of `x509.ParseCertificate` on the DER model. -/
def parseCertificate : Der → Except String X509Content
  | .wellFormed c => .ok c
  | .malformed => .error "x509: malformed certificate"

/-- Modelled from the spec: `NewCounterEncryptorRandFromKey` (§4.1). Key =
hash of the CA private key material (SHA-1 stands for the unspecified hash),
IV = first 16 bytes of the seed, counter starts at zero; fails when the key
algorithm is unsupported. -/
def newCounterEncryptorRandFromKey (k : Option PrivateKey) (seed : List Nat) :
    Except String CounterEncryptorRand :=
  match k with
  | some (.rsa material) => .ok {key := sha1 material, iv := seed.take 16, counter := 0}
  | some (.generated e) =>
    .ok {key := sha1 (e.key ++ e.iv ++ [e.counter]), iv := seed.take 16, counter := 0}
  | _ => .error "only RSA keys supported"

/-- Abstract model of `rsa.GenerateKey`: the key is a deterministic function
of the entropy stream's state, and generation consumes the stream. -/
def rsaGenerateKey (rng : CounterEncryptorRand) : PrivateKey × CounterEncryptorRand :=
  (.generated rng, {rng with counter := rng.counter + 1})

/-- Abstract model of `x509.CreateCertificate`: the deterministic DER encoding
of the template, with the issuer taken from the parent's subject; consumes
entropy. The public key and CA key arguments do not alter the fields the
claims read. -/
def createCertificate (rng : CounterEncryptorRand) (template parent : X509Content)
    (_pub : PrivateKey) (_caPriv : Option PrivateKey) : Der × CounterEncryptorRand :=
  (.wellFormed {template with issuer := parent.subject}, {rng with counter := rng.counter + 1})

/-! ## signer.go -/

def goproxySignerVersion : String := ":goroxy1"

/-- Model of `runtime.Version()`: a constant for any one binary. -/
def runtimeVersion : String := "go1.21.0"

/-- The comma-terminated concatenation the signer hashes: each string's UTF-8
bytes followed by a comma, in list order. -/
def joinCommaBytes (l : List String) : List Nat :=
  l.foldr (fun s acc => strBytes (s ++ ",") ++ acc) []

/-- `hashSorted`: sort a copy of the whole list, then SHA-1 the
comma-terminated concatenation. -/
def hashSorted (lst : List String) : List Nat :=
  sha1 (joinCommaBytes (sortStrings lst))

/-- `x509.KeyUsageDigitalSignature`. -/
def keyUsageDigitalSignature : Nat := 1
/-- `x509.KeyUsageKeyEncipherment`. -/
def keyUsageKeyEncipherment : Nat := 4
/-- `x509.ExtKeyUsageServerAuth`. -/
def extKeyUsageServerAuth : Nat := 1

/-- Unix seconds, at midnight UTC, of a (positive) proleptic Gregorian date. -/
def daysFromCivil (y m d : Int) : Int :=
  let y := if m ≤ 2 then y - 1 else y
  let era := y / 400
  let yoe := y - era * 400
  let doy := (153 * (if 2 < m then m - 3 else m + 9) + 2) / 5 + d - 1
  let doe := yoe * 365 + yoe / 4 - yoe / 100 + doy
  era * 146097 + doe - 719468

/-- `time.Parse("2006-01-02", "2049-12-31")` as Unix seconds. -/
def notAfterUnix : Int := 2524521600

/-- The SAN loop of `signHost`: IP literals into IPAddresses, everything else
appended to DNSNames, each non-IP also overwriting the CommonName. -/
def sanFold (hosts : List String) (t : X509Content) : X509Content :=
  hosts.foldl
    (fun t h =>
      match parseIP h with
      | some ip => {t with ipAddresses := t.ipAddresses ++ [ip]}
      | none =>
        {t with dnsNames := t.dnsNames ++ [h],
                subject := {t.subject with commonName := h}})
    t

/-- The hash `signHost` computes: `hashSorted` of the host list with the
signer version tag and the runtime version tag appended. -/
def signerHash (hosts : List String) : List Nat :=
  hashSorted (hosts ++ [goproxySignerVersion, ":" ++ runtimeVersion])

/-- The template before the SAN loop: serial from the hash, issuer from the
parsed CA, fixed subject organization, epoch-to-2049 validity, the key usage
bits and server-auth extended usage, valid basic constraints. -/
def baseTemplate (x509ca : X509Content) (hash : List Nat) : X509Content :=
  { serialNumber := natFromBytes hash
    issuer := x509ca.subject
    subject := {organization := ["GoProxy untrusted MITM proxy Inc"], commonName := ""}
    notBefore := 0
    notAfter := notAfterUnix
    keyUsage := keyUsageKeyEncipherment ||| keyUsageDigitalSignature
    extKeyUsage := [extKeyUsageServerAuth]
    basicConstraintsValid := true }

/-- The generation path of `signHost` (everything after the cache check). -/
def signHostGenerate (ca : TlsCertificate) (hosts : List String) : SignResult :=
  match parseCertificate (ca.certificate.headD .malformed) with
  | .error e => {cert := zeroTlsCertificate, err := some e}
  | .ok x509ca =>
    let hash := signerHash hosts
    let template := sanFold hosts (baseTemplate x509ca hash)
    match newCounterEncryptorRandFromKey ca.privateKey hash with
    | .error e => {cert := zeroTlsCertificate, err := some e}
    | .ok csprng =>
      let (certpriv, csprng) := rsaGenerateKey csprng
      let (derBytes, _) := createCertificate csprng template x509ca certpriv ca.privateKey
      { cert := {certificate := [derBytes, ca.certificate.headD .malformed],
                 privateKey := some certpriv},
        err := none }

/-- The global `hostMap` cache: `nil` or a map from hostname to certificate. -/
abbrev Cache := List (String × TlsCertificate)

def mapLookup (m : Cache) (k : String) : Option TlsCertificate :=
  (m.find? (fun p => p.1 == k)).map (·.2)

def mapInsert (m : Cache) (k : String) (v : TlsCertificate) : Cache :=
  m.filter (fun p => p.1 != k) ++ [(k, v)]

/-- The post-generation caching: errors leave the map untouched; success makes
the map when it is nil and stores the certificate under every hostname. -/
def signHostFinish (hostMap : Option Cache) (r : SignResult) (hosts : List String) :
    SignResult × Option Cache :=
  match r.err with
  | some _ => (r, hostMap)
  | none => (r, some (hosts.foldl (fun m h => mapInsert m h r.cert) (hostMap.getD [])))

/-- `signHost`, with the global `hostMap` passed and returned explicitly.
With a non-nil map: an empty host list returns the zero certificate, and a
hit on the first hostname returns the cached certificate. Otherwise the
certificate is generated and cached under every hostname. -/
def signHost (hostMap : Option Cache) (ca : TlsCertificate) (hosts : List String) :
    SignResult × Option Cache :=
  match hostMap, hosts with
  | some m, [] => ({cert := zeroTlsCertificate, err := none}, some m)
  | some m, h0 :: t =>
    (match mapLookup m h0 with
     | some c => ({cert := c, err := none}, some m)
     | none => signHostFinish (some m) (signHostGenerate ca (h0 :: t)) (h0 :: t))
  | none, _ => signHostFinish none (signHostGenerate ca hosts) hosts

/-- True exactly when `signHost` reaches the generation path: a nil cache, or
a non-empty host list whose first element is not cached. -/
def missesCache (hostMap : Option Cache) (hosts : List String) : Bool :=
  match hostMap, hosts with
  | none, _ => true
  | some _, [] => false
  | some m, h0 :: _ => (mapLookup m h0).isNone

/-- The content of the leaf (first) certificate of a signing result. -/
def leafContent (r : SignResult) : Option X509Content :=
  match r.cert.certificate with
  | .wellFormed c :: _ => some c
  | _ => none

/-! ## https.go: stripPort and TLSConfigFromCA -/

/-- `stripPort`: everything before the first `:`, or the string unchanged. -/
def stripPort (s : String) : String :=
  match s.data.findIdx? (fun c => c == ':') with
  | none => s
  | some ix => String.mk (s.data.take ix)

/-- The fields of `tls.Config` the factory sets. -/
structure TlsConfig where
  serverName : String := ""
  certificates : List TlsCertificate := []
  deriving DecidableEq, Repr

/-- The process-wide default TLS config template (fields relevant here). -/
def defaultTLSConfig : TlsConfig := {}

/-- `TLSConfigFromCA`'s returned factory, with a nil `certStore` so that
`genCert` runs directly, and the global cache threaded explicitly. -/
def tlsConfigFromCA (ca : TlsCertificate) (hostMap : Option Cache) (host : String) :
    Except String TlsConfig × Option Cache :=
  let hostname := stripPort host
  let config := defaultTLSConfig
  let (r, hostMap) := signHost hostMap ca [hostname]
  match r.err with
  | some e => (.error e, hostMap)
  | none =>
    (.ok {config with serverName := hostname,
                      certificates := config.certificates ++ [r.cert]}, hostMap)

/-! ## HTTP headers (net/http), as far as the code under scrutiny uses them -/

/-- `http.Header`: a map from canonical field name to its values, modelled as
an association list with distinct keys. -/
abbrev Header := List (String × List String)

/-- `header[name]`: the values stored under an exact key, or nothing. -/
def headerVals (h : Header) (name : String) : List String :=
  match h.find? (fun p => p.1 == name) with
  | some p => p.2
  | none => []

/-- `Header.Del` (the key is already canonical where the code calls it). -/
def headerDel (h : Header) (k : String) : Header :=
  h.filter (fun p => p.1 != k)

/-- `Header.Set`: replace all values of the key with the one given. -/
def headerSet (h : Header) (k : String) (v : String) : Header :=
  headerDel h k ++ [(k, [v])]

/-- Value sanitizing in `Header.Write`: newlines become spaces. -/
def sanitizeHeaderValue (v : String) : String :=
  String.mk (v.data.map fun c => if c = '\r' ∨ c = '\n' then ' ' else c)

/-- Insert an entry into a list sorted by key (Go string order). -/
def insertEntry (e : String × List String) : Header → Header
  | [] => [e]
  | f :: fs => if strLtGo f.1 e.1 then f :: insertEntry e fs else e :: f :: fs

/-- `Header.Write` walks the keys in sorted order. -/
def sortEntries (h : Header) : Header := h.foldr insertEntry []

/-- `Header.Write`: one `key: value` line per value, keys in sorted order. -/
def headerWrite (h : Header) : String :=
  (sortEntries h).foldr
    (fun e acc =>
      (e.2.foldr (fun v acc2 => e.1 ++ ": " ++ sanitizeHeaderValue v ++ "\r\n" ++ acc2) "")
        ++ acc)
    ""

/-! ## websocket.go: headerContains and isWebSocketRequest -/

/-- `strings.Split(v, ",")`. -/
def goSplit (v : String) : List String := v.splitOn ","

/-- Whether Go's `unicode.IsSpace` holds (the Latin-1 range; the code only
meets ASCII whitespace in header values). -/
def isGoSpace (c : Char) : Bool :=
  c = ' ' ∨ c = '\t' ∨ c = '\n' ∨ c = '\u000b' ∨ c = '\u000c' ∨ c = '\r' ∨
    c = '\u0085' ∨ c = '\u00A0'

/-- `strings.TrimSpace`. -/
def goTrimSpace (s : String) : String :=
  String.mk ((s.data.dropWhile isGoSpace).reverse.dropWhile isGoSpace).reverse

def asciiLower (c : Char) : Char :=
  if 'A' ≤ c ∧ c ≤ 'Z' then Char.ofNat (c.toNat + 32) else c

/-- `strings.EqualFold`, restricted to ASCII folding (the tokens compared,
`upgrade` and `websocket`, are ASCII). -/
def equalFold (a b : String) : Bool :=
  a.data.map asciiLower == b.data.map asciiLower

/-- `headerContains`: some comma-separated, whitespace-trimmed element of some
value of the (exactly) named header equals `value` case-insensitively. -/
def headerContains (h : Header) (name value : String) : Bool :=
  (headerVals h name).any fun v =>
    (goSplit v).any fun s => equalFold value (goTrimSpace s)

/-- `strings.Contains` (ASCII needles start no mid-rune, so byte and character
containment agree for the method tags tested). -/
def strContains (s sub : String) : Bool :=
  s.data.tails.any fun t => sub.data.isPrefixOf t

/-- The request fields `isWebSocketRequest` reads. -/
structure Request where
  method : String
  header : Header
  deriving Repr

/-- `isWebSocketRequest`: never for `RDG` methods; otherwise the Connection
header must contain `upgrade` and the Upgrade header `websocket`. -/
def isWebSocketRequest (r : Request) : Bool :=
  if strContains r.method "RDG" then false
  else
    headerContains r.header "Connection" "upgrade" &&
      headerContains r.header "Upgrade" "websocket"

/-! ## https.go: the MITM response writer -/

/-- The response fields the MITM per-request loop writes back. The body is
the sequence of read results `io.Copy` obtains before EOF. -/
structure Response where
  status : String
  statusCode : Int
  proto : String
  header : Header
  body : List String
  deriving Repr

/-- The status line: always `HTTP/1.1`, the numeric code, and the reason
(with a duplicated leading code stripped from `resp.Status`). -/
def mitmStatusLine (resp : Response) : String :=
  let statusCode := toString resp.statusCode ++ " "
  let text :=
    if resp.status.startsWith statusCode then resp.status.drop statusCode.length
    else resp.status
  "HTTP/1.1" ++ " " ++ statusCode ++ text ++ "\r\n"

/-- The headers as written: `Content-Length` deleted, `Transfer-Encoding`
set to `chunked`. -/
def mitmHeader (resp : Response) : Header :=
  headerSet (headerDel resp.header "Content-Length") "Transfer-Encoding" "chunked"

/-- Modelled from the spec: the chunked writer (§4.6 step 7; the chunked
encoder's code is not among the provided files). Each non-empty write becomes
`<length hex>\r\n<bytes>\r\n`. -/
def chunkFrame (s : String) : String :=
  String.mk (Nat.toDigits 16 (strBytes s).length) ++ "\r\n" ++ s ++ "\r\n"

/-- The body loop: `io.Copy` feeds every non-empty read to the chunked writer
until EOF (the loop's extra pass copies zero bytes and exits). -/
def chunkedBody (body : List String) : String :=
  (body.filter (fun s => !(s == ""))).foldr (fun s acc => chunkFrame s ++ acc) ""

/-- Everything the per-request MITM loop writes to the client for one
response: status line, headers, blank line, chunked body, the chunked
terminator `0\r\n` from `Close`, and a trailing CRLF. -/
def writeMitmResponse (resp : Response) : String :=
  mitmStatusLine resp ++ headerWrite (mitmHeader resp) ++ "\r\n" ++
    chunkedBody resp.body ++ "0" ++ "\r\n" ++ "\r\n"

/-! ## https.go: upstream CONNECT dialer and the Accept tunnel -/

/-- What the dialer's response check produces: the dial result and whether the
proxy connection was closed. -/
structure ProxyConnectOutcome where
  result : Except (List Nat) Unit
  closed : Bool
  deriving Repr

/-- The response check of the plain-http branch of
`NewConnectDialToProxyWithHandler`: any non-200 reads the whole body, closes
the connection and errors with the body appended. -/
def proxyConnectCheckHTTP (statusCode : Int) (body : List Nat) : ProxyConnectOutcome :=
  if statusCode ≠ 200 then
    {result := .error (strBytes "proxy refused connection" ++ body), closed := true}
  else {result := .ok (), closed := false}

/-- The response check of the https/wss branch: as above, but the body read is
capped at 500 bytes by `io.LimitReader`. -/
def proxyConnectCheckTLS (statusCode : Int) (body : List Nat) : ProxyConnectOutcome :=
  if statusCode ≠ 200 then
    {result := .error (strBytes "proxy refused connection" ++ body.take 500), closed := true}
  else {result := .ok (), closed := false}

/-- Modelled from the spec: the `hasPort` pattern (§4.5 Accept; the regexp's
definition is outside the provided files): the host ends in a colon followed
by one or more digits. -/
def hasPort (s : String) : Bool :=
  let r := s.data.reverse
  let ds := r.takeWhile (fun c => c.isDigit)
  !ds.isEmpty && (r.getD ds.length ' ' == ':')

/-- `httpError`: the 500 line, the error text, a CRLF, then close. -/
def httpError (e : String) : String :=
  "HTTP/1.1 500 Server error\r\n\r\n" ++ e ++ "\r\n"

/-- What the Accept (blind tunnel) branch does up to the first spliced byte. -/
structure AcceptOutcome where
  dialedHost : String
  clientBytes : String
  closed : Bool
  deriving DecidableEq, Repr

/-- The ConnectAccept branch of `handleHttps`: default the port to 80, dial,
answer 500-and-close on failure and `200 OK` on success. -/
def acceptConnect (host : String) (dial : Except String Unit) : AcceptOutcome :=
  let host := if !hasPort host then host ++ ":80" else host
  match dial with
  | .error e => {dialedHost := host, clientBytes := httpError e, closed := true}
  | .ok _ => {dialedHost := host, clientBytes := "HTTP/1.1 200 OK\r\n\r\n", closed := false}

/-! ## Helper lemmas -/

theorem signHostFinish_fst (s : Option Cache) (r : SignResult) (hosts : List String) :
    (signHostFinish s r hosts).1 = r := by
  cases h : r.err <;> simp [signHostFinish, h]

/-- On the generation path, the result of `signHost` is `signHostGenerate`,
whatever the cache held. -/
theorem signHost_miss (s : Option Cache) (ca : TlsCertificate) (hosts : List String)
    (h : missesCache s hosts = true) :
    (signHost s ca hosts).1 = signHostGenerate ca hosts := by
  match s, hosts with
  | none, hosts => simp [signHost, signHostFinish_fst]
  | some m, [] => simp [missesCache] at h
  | some m, h0 :: t =>
    rw [missesCache, Option.isNone_iff_eq_none] at h
    simp [signHost, h, signHostFinish_fst]

/-- The SAN loop appends each IP literal to IPAddresses and every other entry
to DNSNames, with the CommonName ending as the last non-IP entry. -/
theorem sanFold_fields : ∀ (hosts : List String) (t : X509Content),
    sanFold hosts t =
      { t with
        dnsNames := t.dnsNames ++ hosts.filter (fun h => (parseIP h).isNone),
        ipAddresses := t.ipAddresses ++ hosts.filterMap parseIP,
        subject := { t.subject with
          commonName :=
            (hosts.filter (fun h => (parseIP h).isNone)).getLastD t.subject.commonName } }
  | [], t => by simp [sanFold]
  | h :: hs, t => by
    have step : ∀ t' : X509Content, sanFold (h :: hs) t' =
        sanFold hs (match parseIP h with
          | some ip => {t' with ipAddresses := t'.ipAddresses ++ [ip]}
          | none => {t' with dnsNames := t'.dnsNames ++ [h],
                             subject := {t'.subject with commonName := h}}) := by
      intro t'; simp [sanFold]
    cases heq : parseIP h with
    | some ip =>
      rw [step, heq, sanFold_fields hs]
      simp [List.filter_cons, List.filterMap_cons, heq, List.append_assoc]
    | none =>
      rw [step, heq, sanFold_fields hs]
      rw [show (h :: hs).filter (fun x => (parseIP x).isNone)
            = h :: hs.filter (fun x => (parseIP x).isNone) by simp [List.filter_cons, heq]]
      rw [List.getLastD_cons]
      simp [List.filter_cons, List.filterMap_cons, heq, List.append_assoc]

/-- The generation path in closed form, for a CA whose first DER blob parses
and whose private key is RSA. -/
theorem signHostGenerate_eq (ca : TlsCertificate) (hosts : List String)
    (caContent : X509Content) (mat : List Nat)
    (hca : ca.certificate.headD .malformed = .wellFormed caContent)
    (hkey : ca.privateKey = some (.rsa mat)) :
    signHostGenerate ca hosts =
      { cert := { certificate :=
                    [.wellFormed {sanFold hosts (baseTemplate caContent (signerHash hosts)) with
                        issuer := caContent.subject},
                     .wellFormed caContent],
                  privateKey := some (.generated
                    {key := sha1 mat, iv := (signerHash hosts).take 16, counter := 0}) },
        err := none } := by
  rw [signHostGenerate, hca, hkey]
  simp [parseCertificate, newCounterEncryptorRandFromKey, rsaGenerateKey, createCertificate]

/-- A concrete CA certificate content for the concrete evaluations below. -/
def caExampleContent : X509Content :=
  {subject := {organization := ["Test CA"], commonName := "Test CA Root"}}

/-- A concrete CA keypair for the concrete evaluations below. -/
def caExample : TlsCertificate :=
  { certificate := [.wellFormed caExampleContent],
    privateKey := some (.rsa [1, 2, 3, 4]) }

/-- Definition following the spec's words for C3: the hash taken over the
sorted hostname list with the two version tags appended after sorting (the
same comma-terminated serialization), read big-endian. -/
def specSerialSortHostsFirst (hosts : List String) : Nat :=
  natFromBytes (sha1 (joinCommaBytes
    (sortStrings hosts ++ [goproxySignerVersion, ":" ++ runtimeVersion])))

/-! ## The claims -/

set_option maxRecDepth 100000

/-- C1: the claim — a cached certificate returned by `signHost` covers every
queried hostname — is what the code's own FIXME admits it breaks. Evaluated
at the failing trace: after minting for `[a.example, b.example]`, a query for
`[a.example, c.example]` is answered with the cached certificate, whose SAN
entries are exactly the DNS names `a.example` and `b.example` and no IP
addresses, so `c.example` is not covered. -/
theorem signHost_cache_returns_uncovering_cert :
    ((signHost (signHost none caExample ["a.example", "b.example"]).2 caExample
        ["a.example", "c.example"]).1.cert
      = (signHost none caExample ["a.example", "b.example"]).1.cert)
    ∧ ((leafContent (signHost (signHost none caExample ["a.example", "b.example"]).2 caExample
        ["a.example", "c.example"]).1).map (fun c => c.dnsNames)
      = some ["a.example", "b.example"])
    ∧ ((leafContent (signHost (signHost none caExample ["a.example", "b.example"]).2 caExample
        ["a.example", "c.example"]).1).map (fun c => c.ipAddresses) = some [])
    ∧ ((signHost (signHost none caExample ["a.example", "b.example"]).2 caExample
        ["a.example", "c.example"]).1.err = none) := by
  decide

/-- C2: ignoring the cache, `signHost` is deterministic — any two evaluations
that take the generation path return the same certificate (bit-identical DER
chain and private key), because all entropy is the CSPRNG seeded from the CA
private key and the hash of the host list. -/
theorem signHost_deterministic_modulo_cache (ca : TlsCertificate) (hosts : List String)
    (s1 s2 : Option Cache) (h1 : missesCache s1 hosts = true)
    (h2 : missesCache s2 hosts = true) :
    (signHost s1 ca hosts).1 = (signHost s2 ca hosts).1 := by
  rw [signHost_miss s1 ca hosts h1, signHost_miss s2 ca hosts h2]

/-- C2 witness: a nil cache and an empty cache both generate, and agree. -/
theorem signHost_deterministic_modulo_cache_witness :
    missesCache none ["example.com"] = true
    ∧ missesCache (some []) ["example.com"] = true
    ∧ (signHost none caExample ["example.com"]).1
      = (signHost (some []) caExample ["example.com"]).1 :=
  ⟨rfl, rfl, signHost_deterministic_modulo_cache caExample ["example.com"] none (some []) rfl rfl⟩

/-- C3 counterexample: the minted serial is not the big-endian reading of
SHA1(sort(hostnames) ++ version tags): at `hosts = [a.com]` the code's serial
(which sorts the tags together with the hostnames) differs from it. -/
theorem signHost_serial_not_sort_hosts_first :
    (leafContent (signHost none caExample ["a.com"]).1).map (fun c => c.serialNumber)
      ≠ some (specSerialSortHostsFirst ["a.com"]) := by
  decide

/-- C3 (amended): the serial number equals the big-endian integer reading of
H = SHA1 over the comma-terminated concatenation of the sorted full list — the
hostnames with the hard-coded version tag and the runtime version tag appended
before sorting, so the sort is applied to hostnames and tags together. -/
theorem signHost_serial_sorted_full_list (s : Option Cache) (ca : TlsCertificate)
    (hosts : List String) (caContent : X509Content) (mat : List Nat)
    (hmiss : missesCache s hosts = true)
    (hca : ca.certificate.headD .malformed = .wellFormed caContent)
    (hkey : ca.privateKey = some (.rsa mat)) :
    (leafContent (signHost s ca hosts).1).map (fun c => c.serialNumber)
      = some (natFromBytes (sha1 (joinCommaBytes
          (sortStrings (hosts ++ [goproxySignerVersion, ":" ++ runtimeVersion]))))) := by
  rw [signHost_miss s ca hosts hmiss, signHostGenerate_eq ca hosts caContent mat hca hkey]
  simp [leafContent, sanFold_fields, baseTemplate, signerHash, hashSorted]

/-- C3 witness: the amended serial equation at a concrete CA and host list. -/
theorem signHost_serial_sorted_full_list_witness :
    missesCache none ["example.com"] = true
    ∧ caExample.certificate.headD .malformed = .wellFormed caExampleContent
    ∧ caExample.privateKey = some (.rsa [1, 2, 3, 4])
    ∧ (leafContent (signHost none caExample ["example.com"]).1).map (fun c => c.serialNumber)
      = some (natFromBytes (sha1 (joinCommaBytes
          (sortStrings (["example.com"] ++ [goproxySignerVersion, ":" ++ runtimeVersion]))))) :=
  ⟨rfl, rfl, rfl,
    signHost_serial_sorted_full_list none caExample ["example.com"] caExampleContent
      [1, 2, 3, 4] rfl rfl rfl⟩

/-- C4: every template minted on the generation path has NotBefore at the Unix
epoch, NotAfter at 2049-12-31, the fixed subject organization, key usage
KeyEncipherment|DigitalSignature, extended key usage [ServerAuth], valid basic
constraints; IP-literal hosts land in the SAN IP addresses, all other hosts in
the SAN DNS names, and the CommonName is the last non-IP host (empty when all
hosts are IP literals). -/
theorem signHost_template_fields (s : Option Cache) (ca : TlsCertificate)
    (hosts : List String) (caContent : X509Content) (mat : List Nat)
    (hmiss : missesCache s hosts = true)
    (hca : ca.certificate.headD .malformed = .wellFormed caContent)
    (hkey : ca.privateKey = some (.rsa mat)) :
    ((leafContent (signHost s ca hosts).1).map (fun c => c.notBefore) = some 0)
    ∧ ((leafContent (signHost s ca hosts).1).map (fun c => c.notAfter)
        = some (86400 * daysFromCivil 2049 12 31))
    ∧ ((leafContent (signHost s ca hosts).1).map (fun c => c.subject.organization)
        = some ["GoProxy untrusted MITM proxy Inc"])
    ∧ ((leafContent (signHost s ca hosts).1).map (fun c => c.keyUsage)
        = some (keyUsageKeyEncipherment ||| keyUsageDigitalSignature))
    ∧ ((leafContent (signHost s ca hosts).1).map (fun c => c.extKeyUsage)
        = some [extKeyUsageServerAuth])
    ∧ ((leafContent (signHost s ca hosts).1).map (fun c => c.basicConstraintsValid)
        = some true)
    ∧ ((leafContent (signHost s ca hosts).1).map (fun c => c.ipAddresses)
        = some (hosts.filterMap parseIP))
    ∧ ((leafContent (signHost s ca hosts).1).map (fun c => c.dnsNames)
        = some (hosts.filter (fun h => (parseIP h).isNone)))
    ∧ ((leafContent (signHost s ca hosts).1).map (fun c => c.subject.commonName)
        = some ((hosts.filter (fun h => (parseIP h).isNone)).getLastD "")) := by
  rw [signHost_miss s ca hosts hmiss, signHostGenerate_eq ca hosts caContent mat hca hkey,
    sanFold_fields hosts]
  refine ⟨rfl, by rfl, rfl, rfl, rfl, rfl, by simp [leafContent, baseTemplate],
    by simp [leafContent, baseTemplate], by simp [leafContent, baseTemplate]⟩

/-- C4 witness: the template facts at a concrete CA, DNS host and IP host. -/
theorem signHost_template_fields_witness :
    missesCache none ["example.com", "10.0.0.1"] = true
    ∧ caExample.certificate.headD .malformed = .wellFormed caExampleContent
    ∧ caExample.privateKey = some (.rsa [1, 2, 3, 4])
    ∧ (((leafContent (signHost none caExample ["example.com", "10.0.0.1"]).1).map
          (fun c => c.notBefore) = some 0)
      ∧ ((leafContent (signHost none caExample ["example.com", "10.0.0.1"]).1).map
          (fun c => c.notAfter) = some (86400 * daysFromCivil 2049 12 31))
      ∧ ((leafContent (signHost none caExample ["example.com", "10.0.0.1"]).1).map
          (fun c => c.subject.organization) = some ["GoProxy untrusted MITM proxy Inc"])
      ∧ ((leafContent (signHost none caExample ["example.com", "10.0.0.1"]).1).map
          (fun c => c.keyUsage) = some (keyUsageKeyEncipherment ||| keyUsageDigitalSignature))
      ∧ ((leafContent (signHost none caExample ["example.com", "10.0.0.1"]).1).map
          (fun c => c.extKeyUsage) = some [extKeyUsageServerAuth])
      ∧ ((leafContent (signHost none caExample ["example.com", "10.0.0.1"]).1).map
          (fun c => c.basicConstraintsValid) = some true)
      ∧ ((leafContent (signHost none caExample ["example.com", "10.0.0.1"]).1).map
          (fun c => c.ipAddresses) = some (["example.com", "10.0.0.1"].filterMap parseIP))
      ∧ ((leafContent (signHost none caExample ["example.com", "10.0.0.1"]).1).map
          (fun c => c.dnsNames)
          = some (["example.com", "10.0.0.1"].filter (fun h => (parseIP h).isNone)))
      ∧ ((leafContent (signHost none caExample ["example.com", "10.0.0.1"]).1).map
          (fun c => c.subject.commonName)
          = some ((["example.com", "10.0.0.1"].filter
              (fun h => (parseIP h).isNone)).getLastD ""))) :=
  ⟨rfl, rfl, rfl,
    signHost_template_fields none caExample ["example.com", "10.0.0.1"] caExampleContent
      [1, 2, 3, 4] rfl rfl rfl⟩

/-- C5 counterexample: with a nil cache (the initial state of the global
`hostMap`), `signHost` on an empty host list does not return the zero
certificate — the nil-guarded empty check is skipped and a certificate with
no SANs is minted (still with a nil error). -/
theorem signHost_nil_cache_empty_hosts_mints :
    (signHost none caExample []).1.cert ≠ zeroTlsCertificate
    ∧ (signHost none caExample []).1.err = none := by
  constructor
  · decide
  · decide

/-- C5 (amended): when the cache map is non-nil, `signHost` on an empty host
list returns the zero-value certificate and a nil error; with a nil cache map
the empty check is skipped and a certificate is minted instead. -/
theorem signHost_empty_hosts_nonnil_cache_zero (m : Cache) (ca : TlsCertificate) :
    (signHost (some m) ca []).1 = {cert := zeroTlsCertificate, err := none} := rfl

/-- C6: a request is detected as a WebSocket upgrade exactly when some
comma-separated, whitespace-trimmed element of its Connection header equals
`upgrade` case-insensitively, some such element of its Upgrade header equals
`websocket`, and the method does not contain `RDG`. -/
theorem isWebSocketRequest_iff (r : Request) :
    isWebSocketRequest r = true ↔
      ((∃ v ∈ headerVals r.header "Connection",
          ∃ s ∈ goSplit v, equalFold "upgrade" (goTrimSpace s) = true)
        ∧ (∃ v ∈ headerVals r.header "Upgrade",
            ∃ s ∈ goSplit v, equalFold "websocket" (goTrimSpace s) = true)
        ∧ ¬ strContains r.method "RDG" = true) := by
  rw [isWebSocketRequest]
  by_cases h : strContains r.method "RDG"
  · simp [h]
  · simp [h, headerContains, List.any_eq_true]

/-- Header lookup misses every key a `Del` removed. -/
theorem find?_del_self (h : Header) (k : String) :
    (headerDel h k).find? (fun p => p.1 == k) = none := by
  rw [List.find?_eq_none]
  intro x hx
  have := List.of_mem_filter hx
  simpa using this

/-- Deleting one key does not create hits for another missing key. -/
theorem find?_del_other (h : Header) (k k2 : String)
    (hmiss : h.find? (fun p => p.1 == k) = none) :
    (headerDel h k2).find? (fun p => p.1 == k) = none := by
  rw [List.find?_eq_none] at hmiss ⊢
  intro x hx
  exact hmiss x (List.mem_of_mem_filter hx)

theorem headerVals_set_self (h : Header) (k v : String) :
    headerVals (headerSet h k v) k = [v] := by
  rw [headerVals, headerSet, List.find?_append, find?_del_self]
  simp

theorem headerVals_set_other (h : Header) (k k2 v : String) (hne : (k2 == k) = false)
    (hmiss : h.find? (fun p => p.1 == k) = none) :
    headerVals (headerSet h k2 v) k = [] := by
  rw [headerVals, headerSet, List.find?_append, find?_del_other h k k2 hmiss]
  simp [hne]

/-- C7: the response written back by the MITM loop always starts `HTTP/1.1 `
whatever the origin's protocol version was, carries no Content-Length, has
Transfer-Encoding set to chunked, and is the status line, the headers, a
blank line, the chunked-framed body, the chunked terminator and a trailing
CRLF. -/
theorem writeMitmResponse_spec (resp : Response) (p : String) :
    (writeMitmResponse resp).data.take 9 = "HTTP/1.1 ".data
    ∧ writeMitmResponse {resp with proto := p} = writeMitmResponse resp
    ∧ headerVals (mitmHeader resp) "Content-Length" = []
    ∧ headerVals (mitmHeader resp) "Transfer-Encoding" = ["chunked"]
    ∧ writeMitmResponse resp
        = mitmStatusLine resp ++ headerWrite (mitmHeader resp) ++ "\r\n"
            ++ chunkedBody resp.body ++ "0" ++ "\r\n" ++ "\r\n" := by
  refine ⟨?_, rfl, ?_, ?_, rfl⟩
  · have hline : writeMitmResponse resp
        = "HTTP/1.1 " ++ ((toString resp.statusCode ++ " ")
            ++ ((if resp.status.startsWith (toString resp.statusCode ++ " ") then
                  resp.status.drop (toString resp.statusCode ++ " ").length
                 else resp.status) ++ ("\r\n"
            ++ (headerWrite (mitmHeader resp) ++ ("\r\n"
            ++ (chunkedBody resp.body ++ ("0" ++ ("\r\n" ++ "\r\n")))))))) := by
      rw [writeMitmResponse, mitmStatusLine]
      simp only [String.append_assoc]
      rfl
    rw [hline, String.data_append]
    exact List.take_left' rfl
  · exact headerVals_set_other _ _ _ _ rfl (find?_del_self resp.header "Content-Length")
  · exact headerVals_set_self _ _ _

/-- C8: the upstream CONNECT dialer treats any non-200 answer from the chained
proxy as a refusal: it closes the proxy connection and returns an error whose
text is `proxy refused connection` followed by the response body — the whole
body on the plain-http branch, at most 500 bytes of it on the TLS branch. -/
theorem proxyConnect_non200_refused (statusCode : Int) (body : List Nat)
    (h : statusCode ≠ 200) :
    (proxyConnectCheckHTTP statusCode body).closed = true
    ∧ (proxyConnectCheckHTTP statusCode body).result
        = .error (strBytes "proxy refused connection" ++ body)
    ∧ (proxyConnectCheckTLS statusCode body).closed = true
    ∧ (proxyConnectCheckTLS statusCode body).result
        = .error (strBytes "proxy refused connection" ++ body.take 500) := by
  simp [proxyConnectCheckHTTP, proxyConnectCheckTLS, h]

/-- C8 witness: a 407 refusal, with a concrete body. -/
theorem proxyConnect_non200_refused_witness :
    ((407 : Int) ≠ 200)
    ∧ ((proxyConnectCheckHTTP 407 (strBytes "denied")).closed = true
      ∧ (proxyConnectCheckHTTP 407 (strBytes "denied")).result
          = .error (strBytes "proxy refused connection" ++ strBytes "denied")
      ∧ (proxyConnectCheckTLS 407 (strBytes "denied")).closed = true
      ∧ (proxyConnectCheckTLS 407 (strBytes "denied")).result
          = .error (strBytes "proxy refused connection" ++ (strBytes "denied").take 500)) :=
  ⟨by decide, proxyConnect_non200_refused 407 (strBytes "denied") (by decide)⟩

/-- C9: the Accept (blind tunnel) branch appends `:80` exactly when the host
has no port, answers a failed dial with exactly the 500 error block and a
close, and a successful dial with exactly `HTTP/1.1 200 OK` and an empty line
before any tunneled bytes. -/
theorem acceptConnect_wire (host e : String) :
    (acceptConnect host (.error e)).clientBytes
        = "HTTP/1.1 500 Server error\r\n\r\n" ++ e ++ "\r\n"
    ∧ (acceptConnect host (.error e)).closed = true
    ∧ (acceptConnect host (.ok ())).clientBytes = "HTTP/1.1 200 OK\r\n\r\n"
    ∧ (acceptConnect host (.ok ())).closed = false
    ∧ (acceptConnect host (.error e)).dialedHost
        = (if hasPort host then host else host ++ ":80")
    ∧ (acceptConnect host (.ok ())).dialedHost
        = (if hasPort host then host else host ++ ":80") := by
  by_cases h : hasPort host <;> simp [acceptConnect, httpError, h]

/-- The `Option.map (+1)` form of `findIdx?` on a tail. -/
theorem stripPort_aux : ∀ l : List Char,
    (match l.findIdx? (fun c => c == ':') with
      | none => l
      | some ix => l.take ix) = l.takeWhile (fun c => !(c == ':'))
  | [] => rfl
  | c :: cs => by
    cases hc : c == ':' with
    | true =>
      rw [List.findIdx?_cons, if_pos hc]
      simp [List.takeWhile_cons, hc]
    | false =>
      rw [List.findIdx?_cons, if_neg (by simp [hc]), List.findIdx?_succ]
      have ih := stripPort_aux cs
      cases hidx : cs.findIdx? (fun c => c == ':') with
      | none =>
        rw [hidx] at ih
        simp [List.takeWhile_cons, hc, ← ih]
      | some ix =>
        rw [hidx] at ih
        simp [List.takeWhile_cons, hc, List.take_succ_cons, ← ih]

/-- C10: `stripPort` keeps everything before the first colon (the whole string
when there is none), so `a.b:443` and `a.b` both give `a.b` but the bracketed
IPv6 host `[::1]:443` gives `[`; and the TLS config factory sets the server
name to, and signs the certificate for, exactly that stripped name. -/
theorem stripPort_and_tlsConfig (s0 : Option Cache) (ca : TlsCertificate) (host : String)
    (hsign : (signHost s0 ca [stripPort host]).1.err = none) :
    stripPort "a.b:443" = "a.b" ∧ stripPort "a.b" = "a.b" ∧ stripPort "[::1]:443" = "["
    ∧ (∀ t : String, stripPort t = String.mk (t.data.takeWhile (fun c => !(c == ':'))))
    ∧ (tlsConfigFromCA ca s0 host).1
        = .ok { serverName := stripPort host,
                certificates := [(signHost s0 ca [stripPort host]).1.cert] } := by
  refine ⟨by decide, by decide, by decide, ?_, ?_⟩
  · intro t
    obtain ⟨l⟩ := t
    rw [stripPort]
    cases hidx : l.findIdx? (fun c => c == ':') with
    | none =>
      have := stripPort_aux l
      rw [hidx] at this
      simp only at this ⊢
      rw [← this]
    | some ix =>
      have := stripPort_aux l
      rw [hidx] at this
      simp only at this ⊢
      rw [← this]
  · rw [tlsConfigFromCA]
    simp only [hsign]
    rfl

/-- C10 witness: at `[::1]:443` with a fresh cache, the factory succeeds and
serves the mangled name `[`. -/
theorem stripPort_and_tlsConfig_witness :
    ((signHost none caExample [stripPort "[::1]:443"]).1.err = none)
    ∧ ((tlsConfigFromCA caExample none "[::1]:443").1
        = .ok { serverName := stripPort "[::1]:443",
                certificates := [(signHost none caExample [stripPort "[::1]:443"]).1.cert] }) :=
  ⟨by decide,
    (stripPort_and_tlsConfig none caExample "[::1]:443" (by decide)).2.2.2.2⟩

end GoProxy
